import Mathlib

/-!
Shallow embedding of the IOx catalog `Partition`
(`src/server/src/db/catalog/partition.rs`) of the influxdb repository.

Modelling conventions:
- Machine integers (`u32`) are `Nat` together with the explicit bound
  `U32LIMIT = 2 ^ 32`; `checked_add(1)` succeeds exactly when the incremented
  value is still below `U32LIMIT`.
- A fatal abort (`panic!` / `assert!` / `assert_eq!` / `.expect`) is modelled
  by `Except.error (msg, st)` where `st` is the partition state at the moment
  the abort fires.  A real abort terminates the process, so `st` is never
  observed by later operations; carrying it lets theorems talk about which
  mutations precede an abort.
- `BTreeMap<u32, _>` is modelled as an association list that the insert
  operation keeps sorted by key in strictly ascending order; iteration order
  of the map is the list order.
- External collaborator types (mutable-buffer chunk, read-buffer chunk,
  parquet chunk, schema, delete predicates) are opaque beyond the fields the
  partition code reads from them.
-/

/-- External mutable-buffer chunk (`mutable_buffer::chunk::MBChunk`): opaque
to the partition code beyond its table name. -/
structure MBChunk where
  table_name : String
deriving DecidableEq, Repr

/-- External read-buffer chunk (`read_buffer::RBChunk`): opaque; its row count
is only used for logging. -/
structure RBChunk where
  rows : Nat
deriving DecidableEq, Repr

/-- External parquet chunk (`parquet_file::chunk::ParquetChunk`): opaque to
the partition code beyond its table name. -/
structure ParquetChunk where
  table_name : String
deriving DecidableEq, Repr

/-- External schema type (`internal_types::schema::Schema`): fully opaque to
the partition code. -/
abbrev Schema := Unit

/-- External delete-predicate type (`query::predicate::Predicate`): fully
opaque to the partition code. -/
abbrev Predicate := Unit

/-- Modelled from the spec: the chunk-level error type
(`catalog::chunk::Error`, not under src/) wrapped by
`Error::CreateOpenChunk`; opaque here. -/
structure ChunkError where
  msg : String
deriving DecidableEq, Repr

/-- Modelled from the spec: `ChunkLifecycleAction` (crate `data_types`, not
under src/) — the kind of in-flight lifecycle operation owning a chunk:
persist, compact, or drop.  `partition.rs` only ever compares it against
`Dropping`. -/
inductive ChunkLifecycleAction where
  | Persisting
  | Compacting
  | Dropping
deriving DecidableEq, Repr

/-- `PartitionAddr` (crate `data_types`): immutable identity of a partition. -/
structure PartitionAddr where
  db_name : String
  table_name : String
  partition_key : String
deriving DecidableEq, Repr

/-- `ChunkAddr` (crate `data_types`): identity of a chunk — the parent
partition address plus the chunk id. -/
structure ChunkAddr where
  db_name : String
  table_name : String
  partition_key : String
  chunk_id : Nat
deriving DecidableEq, Repr

/-- Modelled from the spec: `ChunkAddr::new` pairs the parent partition
address with the chunk id. -/
def ChunkAddr.new (addr : PartitionAddr) (chunk_id : Nat) : ChunkAddr :=
  { db_name := addr.db_name, table_name := addr.table_name,
    partition_key := addr.partition_key, chunk_id := chunk_id }

/-- Modelled from the spec: a chunk's physical representation (`ChunkStage`,
`catalog::chunk`, not under src/): mutable open buffer, frozen read-optimized
buffer, or object-store only. -/
inductive ChunkStage where
  | Open (mb : MBChunk)
  | Frozen (rb : RBChunk) (schema : Schema) (delete_predicates : List Predicate)
  | ObjectStoreOnly (pq : ParquetChunk) (delete_predicates : List Predicate)
deriving DecidableEq, Repr

/-- Does the stage match `ChunkStage::Open { .. }`? -/
def ChunkStage.isOpen : ChunkStage → Bool
  | .Open _ => true
  | _ => false

/-- `CatalogChunk` (`catalog::chunk`, not under src/): the fields of a chunk
that the partition code observes.  Modelled from the spec: address, stage,
optional in-flight lifecycle action, write times, and the chunk order. -/
structure CatalogChunk where
  addr : ChunkAddr
  stage : ChunkStage
  lifecycle_action : Option ChunkLifecycleAction
  time_of_first_write : Nat
  time_of_last_write : Nat
  order : Nat
deriving DecidableEq, Repr

/-- Modelled from the spec: `CatalogChunk::new_open` (not under src/) creates
a chunk in `Open` stage, with no in-flight lifecycle action, holding the
mutable buffer, with both write times set to the write timestamp and the
given order. -/
def CatalogChunk.new_open (addr : ChunkAddr) (chunk : MBChunk)
    (time_of_write : Nat) (chunk_order : Nat) : CatalogChunk :=
  { addr := addr, stage := ChunkStage.Open chunk, lifecycle_action := none,
    time_of_first_write := time_of_write, time_of_last_write := time_of_write,
    order := chunk_order }

/-- Modelled from the spec: `CatalogChunk::new_rub_chunk` (not under src/)
creates a chunk directly in `Frozen` (read-buffer) stage with no in-flight
lifecycle action. -/
def CatalogChunk.new_rub_chunk (addr : ChunkAddr) (chunk : RBChunk)
    (time_of_first_write time_of_last_write : Nat) (schema : Schema)
    (delete_predicates : List Predicate) (chunk_order : Nat) : CatalogChunk :=
  { addr := addr, stage := ChunkStage.Frozen chunk schema delete_predicates,
    lifecycle_action := none,
    time_of_first_write := time_of_first_write,
    time_of_last_write := time_of_last_write,
    order := chunk_order }

/-- Modelled from the spec: `CatalogChunk::new_object_store_only` (not under
src/) creates a chunk directly in `ObjectStoreOnly` stage with no in-flight
lifecycle action. -/
def CatalogChunk.new_object_store_only (addr : ChunkAddr) (chunk : ParquetChunk)
    (time_of_first_write time_of_last_write : Nat)
    (delete_predicates : List Predicate) (chunk_order : Nat) : CatalogChunk :=
  { addr := addr, stage := ChunkStage.ObjectStoreOnly chunk delete_predicates,
    lifecycle_action := none,
    time_of_first_write := time_of_first_write,
    time_of_last_write := time_of_last_write,
    order := chunk_order }

/-- One more than the largest `u32` value. -/
def U32LIMIT : Nat := 4294967296

/-- The messages of the fatal aborts (`panic!` / `assert!` / `assert_eq!` /
`.expect`) that `partition.rs` can raise. -/
inductive PanicMsg where
  | ChunkIdOverflow
  | ChunkOrderOverflow
  | ChunkAlreadyExisted (chunk_id : Nat)
  | ChunkOrderOutOfRange (chunk_order bound : Nat)
  | TableNameMismatch (got expected : String)
deriving DecidableEq, Repr

/-- The recoverable error enum of `partition.rs` (lines 24-41). -/
inductive Error where
  | ChunkNotFound (chunk : ChunkAddr)
  | LifecycleInProgress (chunk : ChunkAddr) (action : ChunkLifecycleAction)
  | CreateOpenChunk (source : ChunkError)
deriving DecidableEq, Repr

/-- The chunk mapping of a partition: `BTreeMap<u32, CatalogChunk>` as an
association list kept sorted by key. -/
abbrev ChunkMap := List (Nat × CatalogChunk)

/-- `BTreeMap::get` / `contains_key`: find the value stored at a key. -/
def btLookup : ChunkMap → Nat → Option CatalogChunk
  | [], _ => none
  | (k', v') :: rest, k => if k = k' then some v' else btLookup rest k

/-- `BTreeMap::insert`: store a value at a key, keeping keys sorted, and
return the previous value at that key (if any) alongside the new map. -/
def btInsert : ChunkMap → Nat → CatalogChunk → ChunkMap × Option CatalogChunk
  | [], k, v => ([(k, v)], none)
  | (k', v') :: rest, k, v =>
    if k < k' then ((k, v) :: (k', v') :: rest, none)
    else if k = k' then ((k, v) :: rest, some v')
    else
      let r := btInsert rest k v
      ((k', v') :: r.1, r.2)

/-- `BTreeMap::remove`: delete the entry at a key, returning the removed
value (if any) alongside the new map. -/
def btRemove : ChunkMap → Nat → ChunkMap × Option CatalogChunk
  | [], _ => ([], none)
  | (k', v') :: rest, k =>
    if k = k' then (rest, some v')
    else
      let r := btRemove rest k
      ((k', v') :: r.1, r.2)

/-- Representation invariant of the `BTreeMap` model: keys strictly ascend. -/
def ChunkMapSorted (m : ChunkMap) : Prop :=
  List.Pairwise (fun a b => a.1 < b.1) m

instance (m : ChunkMap) : Decidable (ChunkMapSorted m) := by
  unfold ChunkMapSorted; infer_instance

/-- The catalog `Partition` (lines 48-74).  The metrics handle and the
persistence windows are omitted: no operation modelled here reads or writes
them. -/
structure Partition where
  addr : PartitionAddr
  chunks : ChunkMap
  created_at : Nat
  last_write_at : Nat
  next_chunk_id : Nat
  next_chunk_order : Nat
deriving DecidableEq, Repr

/-- `Partition::new` (lines 81-93); `Utc::now()` is passed in as `now`. -/
def Partition.new (addr : PartitionAddr) (now : Nat) : Partition :=
  { addr := addr, chunks := [], created_at := now, last_write_at := now,
    next_chunk_id := 0, next_chunk_order := 0 }

/-- `Partition::table_name` (lines 111-113). -/
def Partition.table_name (p : Partition) : String :=
  p.addr.table_name

/-- `Partition::pick_next` (lines 204-208): return the current counter value
and advance the counter, aborting on `u32` overflow. -/
def Partition.pick_next (cur : Nat) (error_msg : PanicMsg) :
    Except PanicMsg (Nat × Nat) :=
  if cur + 1 < U32LIMIT then Except.ok (cur, cur + 1) else Except.error error_msg

/-- `Partition::create_open_chunk` (lines 136-163): check the table name,
allocate the next chunk id and order, build an `Open`-stage chunk, insert it,
and abort if the id was already present. -/
def Partition.create_open_chunk (p : Partition) (chunk : MBChunk)
    (time_of_write : Nat) : Except (PanicMsg × Partition) (Partition × CatalogChunk) :=
  if chunk.table_name = p.table_name then
    match Partition.pick_next p.next_chunk_id PanicMsg.ChunkIdOverflow with
    | Except.error e => Except.error (e, p)
    | Except.ok (chunk_id, id') =>
      let p1 : Partition := { p with next_chunk_id := id' }
      match Partition.pick_next p1.next_chunk_order PanicMsg.ChunkOrderOverflow with
      | Except.error e => Except.error (e, p1)
      | Except.ok (chunk_order, ord') =>
        let p2 : Partition := { p1 with next_chunk_order := ord' }
        let addr := ChunkAddr.new p2.addr chunk_id
        let c := CatalogChunk.new_open addr chunk time_of_write chunk_order
        let r := btInsert p2.chunks chunk_id c
        let p3 : Partition := { p2 with chunks := r.1 }
        if r.2.isSome then Except.error (PanicMsg.ChunkAlreadyExisted chunk_id, p3)
        else Except.ok (p3, c)
  else Except.error (PanicMsg.TableNameMismatch chunk.table_name p.table_name, p)

/-- `Partition::create_rub_chunk` (lines 166-202): allocate the next chunk
id, assert that the supplied order is below `next_chunk_order`, build a
read-buffer chunk, insert it, and abort if the id was already present. -/
def Partition.create_rub_chunk (p : Partition) (chunk : RBChunk)
    (time_of_first_write time_of_last_write : Nat) (schema : Schema)
    (delete_predicates : List Predicate) (chunk_order : Nat) :
    Except (PanicMsg × Partition) (Partition × CatalogChunk) :=
  match Partition.pick_next p.next_chunk_id PanicMsg.ChunkIdOverflow with
  | Except.error e => Except.error (e, p)
  | Except.ok (chunk_id, id') =>
    let p1 : Partition := { p with next_chunk_id := id' }
    if chunk_order < p1.next_chunk_order then
      let addr := ChunkAddr.new p1.addr chunk_id
      let c := CatalogChunk.new_rub_chunk addr chunk time_of_first_write
        time_of_last_write schema delete_predicates chunk_order
      let r := btInsert p1.chunks chunk_id c
      let p2 : Partition := { p1 with chunks := r.1 }
      if r.2.isSome then Except.error (PanicMsg.ChunkAlreadyExisted chunk_id, p2)
      else Except.ok (p2, c)
    else Except.error (PanicMsg.ChunkOrderOutOfRange chunk_order p1.next_chunk_order, p1)

/-- `Partition::insert_object_store_only_chunk` (lines 217-257): check the
table name; if the supplied id is vacant, advance `next_chunk_id` to
`max(current, chunk_id + 1)` and `next_chunk_order` to
`max(current, chunk_order + 1)` and insert; abort if the id is occupied. -/
def Partition.insert_object_store_only_chunk (p : Partition) (chunk_id : Nat)
    (chunk : ParquetChunk) (time_of_first_write time_of_last_write : Nat)
    (delete_predicates : List Predicate) (chunk_order : Nat) :
    Except (PanicMsg × Partition) (Partition × CatalogChunk) :=
  if chunk.table_name = p.table_name then
    let addr := ChunkAddr.new p.addr chunk_id
    let c := CatalogChunk.new_object_store_only addr chunk time_of_first_write
      time_of_last_write delete_predicates chunk_order
    match btLookup p.chunks chunk_id with
    | none =>
      if chunk_id + 1 < U32LIMIT then
        let p1 : Partition := { p with next_chunk_id := max p.next_chunk_id (chunk_id + 1) }
        if chunk_order + 1 < U32LIMIT then
          let p2 : Partition :=
            { p1 with next_chunk_order := max p1.next_chunk_order (chunk_order + 1) }
          Except.ok ({ p2 with chunks := (btInsert p2.chunks chunk_id c).1 }, c)
        else Except.error (PanicMsg.ChunkOrderOverflow, p1)
      else Except.error (PanicMsg.ChunkIdOverflow, p)
    | some _ => Except.error (PanicMsg.ChunkAlreadyExisted chunk_id, p)
  else Except.error (PanicMsg.TableNameMismatch chunk.table_name p.table_name, p)

/-- `Partition::drop_chunk` (lines 260-280): absent id yields `ChunkNotFound`;
an in-flight lifecycle action other than `Dropping` yields
`LifecycleInProgress` with the chunk's address and the action; otherwise the
chunk is removed and returned. -/
def Partition.drop_chunk (p : Partition) (chunk_id : Nat) :
    Except Error (Partition × CatalogChunk) :=
  match btLookup p.chunks chunk_id with
  | none => Except.error (Error.ChunkNotFound (ChunkAddr.new p.addr chunk_id))
  | some c =>
    match c.lifecycle_action with
    | some action =>
      if action ≠ ChunkLifecycleAction.Dropping then
        Except.error (Error.LifecycleInProgress c.addr action)
      else Except.ok ({ p with chunks := (btRemove p.chunks chunk_id).1 }, c)
    | none => Except.ok ({ p with chunks := (btRemove p.chunks chunk_id).1 }, c)

/-- `Partition::force_drop_chunk` (lines 283-285): unconditionally remove the
entry at the given id. -/
def Partition.force_drop_chunk (p : Partition) (chunk_id : Nat) : Partition :=
  { p with chunks := (btRemove p.chunks chunk_id).1 }

/-- `Partition::open_chunk` (lines 288-296): the first chunk, in key order,
whose stage is `Open`. -/
def Partition.open_chunk (p : Partition) : Option CatalogChunk :=
  (p.chunks.find? fun kv => kv.2.stage.isOpen).map Prod.snd

/-- `Partition::chunk` (lines 299-301): lookup by chunk id. -/
def Partition.chunk (p : Partition) (chunk_id : Nat) : Option CatalogChunk :=
  btLookup p.chunks chunk_id

/-- `Partition::chunks` (lines 306-308): the chunks in key order. -/
def Partition.chunk_list (p : Partition) : List CatalogChunk :=
  p.chunks.map Prod.snd

/-- `Partition::keyed_chunks` (lines 314-316): the (id, chunk) pairs in key
order. -/
def Partition.keyed_chunks (p : Partition) : List (Nat × CatalogChunk) :=
  p.chunks

/-- One mutating partition operation, for stating trace invariants. -/
inductive PartOp where
  | createOpen (chunk : MBChunk) (time_of_write : Nat)
  | createFrozen (chunk : RBChunk) (time_of_first_write time_of_last_write : Nat)
      (schema : Schema) (delete_predicates : List Predicate) (chunk_order : Nat)
  | insertOSO (chunk_id : Nat) (chunk : ParquetChunk)
      (time_of_first_write time_of_last_write : Nat)
      (delete_predicates : List Predicate) (chunk_order : Nat)
  | dropChunk (chunk_id : Nat)
  | forceDrop (chunk_id : Nat)
deriving DecidableEq, Repr

/-- Apply one operation.  The result is `none` when the operation aborts
fatally (the process dies, so the trace ends); otherwise it is the new state
together with the list of (chunk id, chunk order) pairs inserted into the
mapping and the list of chunk ids allocated from the `next_chunk_id` counter
by this step.  Recoverable `drop_chunk` errors leave the state unchanged. -/
def stepOp (p : Partition) : PartOp → Option (Partition × List (Nat × Nat) × List Nat)
  | PartOp.createOpen chunk t =>
    match p.create_open_chunk chunk t with
    | Except.ok (p', c) => some (p', [(c.addr.chunk_id, c.order)], [p.next_chunk_id])
    | Except.error _ => none
  | PartOp.createFrozen chunk t1 t2 schema preds ord =>
    match p.create_rub_chunk chunk t1 t2 schema preds ord with
    | Except.ok (p', c) => some (p', [(c.addr.chunk_id, c.order)], [p.next_chunk_id])
    | Except.error _ => none
  | PartOp.insertOSO chunk_id chunk t1 t2 preds ord =>
    match p.insert_object_store_only_chunk chunk_id chunk t1 t2 preds ord with
    | Except.ok (p', _) => some (p', [(chunk_id, ord)], [])
    | Except.error _ => none
  | PartOp.dropChunk chunk_id =>
    match p.drop_chunk chunk_id with
    | Except.ok (p', _) => some (p', [], [])
    | Except.error _ => some (p, [], [])
  | PartOp.forceDrop chunk_id => some (p.force_drop_chunk chunk_id, [], [])

/-- Run a sequence of operations, accumulating the inserted (id, order)
pairs and the counter-allocated ids; `none` if some operation aborts. -/
def runOps : Partition → List PartOp → Option (Partition × List (Nat × Nat) × List Nat)
  | p, [] => some (p, [], [])
  | p, op :: ops =>
    match stepOp p op with
    | none => none
    | some (p1, ins1, alloc1) =>
      match runOps p1 ops with
      | none => none
      | some (p2, ins2, alloc2) => some (p2, ins1 ++ ins2, alloc1 ++ alloc2)

theorem btInsert_mem {m : ChunkMap} {k : Nat} {v : CatalogChunk} {x : Nat × CatalogChunk}
    (h : x ∈ (btInsert m k v).1) : x ∈ m ∨ x = (k, v) := by
  induction m with
  | nil =>
    simp only [btInsert, List.mem_singleton] at h
    exact Or.inr h
  | cons hd tl ih =>
    simp only [btInsert] at h
    by_cases h1 : k < hd.1
    · simp only [if_pos h1, List.mem_cons] at h
      rcases h with h | h | h
      · exact Or.inr h
      · exact Or.inl (h ▸ List.mem_cons_self hd tl)
      · exact Or.inl (List.mem_cons_of_mem _ h)
    · by_cases h2 : k = hd.1
      · simp only [if_neg h1, if_pos h2, List.mem_cons] at h
        rcases h with h | h
        · exact Or.inr h
        · exact Or.inl (List.mem_cons_of_mem _ h)
      · simp only [if_neg h1, if_neg h2, List.mem_cons] at h
        rcases h with h | h
        · exact Or.inl (h ▸ List.mem_cons_self hd tl)
        · rcases ih h with h3 | h3
          · exact Or.inl (List.mem_cons_of_mem _ h3)
          · exact Or.inr h3

theorem btInsert_sorted {m : ChunkMap} {k : Nat} {v : CatalogChunk}
    (h : ChunkMapSorted m) : ChunkMapSorted (btInsert m k v).1 := by
  induction m with
  | nil => simp [btInsert, ChunkMapSorted]
  | cons hd tl ih =>
    rw [ChunkMapSorted, List.pairwise_cons] at h
    obtain ⟨hhead, htail⟩ := h
    simp only [btInsert]
    by_cases h1 : k < hd.1
    · simp only [if_pos h1]
      rw [ChunkMapSorted, List.pairwise_cons]
      refine ⟨?_, ?_⟩
      · intro b hb
        rcases List.mem_cons.mp hb with hb | hb
        · exact hb ▸ h1
        · exact lt_trans h1 (hhead b hb)
      · rw [List.pairwise_cons]
        exact ⟨hhead, htail⟩
    · by_cases h2 : k = hd.1
      · simp only [if_neg h1, if_pos h2]
        rw [ChunkMapSorted, List.pairwise_cons]
        exact ⟨fun b hb => h2 ▸ hhead b hb, htail⟩
      · simp only [if_neg h1, if_neg h2]
        rw [ChunkMapSorted, List.pairwise_cons]
        refine ⟨?_, ih htail⟩
        intro b hb
        rcases btInsert_mem hb with hb | hb
        · exact hhead b hb
        · subst hb
          omega

theorem btRemove_sublist (m : ChunkMap) (k : Nat) : List.Sublist (btRemove m k).1 m := by
  induction m with
  | nil => simp [btRemove]
  | cons hd tl ih =>
    simp only [btRemove]
    by_cases h1 : k = hd.1
    · simp only [if_pos h1]
      exact List.sublist_cons_self hd tl
    · simp only [if_neg h1]
      exact List.Sublist.cons₂ hd ih

theorem btRemove_sorted {m : ChunkMap} {k : Nat}
    (h : ChunkMapSorted m) : ChunkMapSorted (btRemove m k).1 :=
  List.Pairwise.sublist (btRemove_sublist m k) h

theorem btLookup_eq_none_of_forall {m : ChunkMap} {k : Nat}
    (h : ∀ x ∈ m, x.1 ≠ k) : btLookup m k = none := by
  induction m with
  | nil => rfl
  | cons hd tl ih =>
    simp only [btLookup]
    rw [if_neg fun hk => h hd (List.mem_cons_self hd tl) hk.symm]
    exact ih fun x hx => h x (List.mem_cons_of_mem _ hx)

theorem btLookup_btRemove_self {m : ChunkMap} {k : Nat}
    (h : ChunkMapSorted m) : btLookup (btRemove m k).1 k = none := by
  induction m with
  | nil => rfl
  | cons hd tl ih =>
    rw [ChunkMapSorted, List.pairwise_cons] at h
    obtain ⟨hhead, htail⟩ := h
    simp only [btRemove]
    by_cases h1 : k = hd.1
    · simp only [if_pos h1]
      exact btLookup_eq_none_of_forall fun x hx => by
        have := hhead x hx
        omega
    · simp only [if_neg h1, btLookup, if_neg h1]
      exact ih htail

theorem btRemove_of_lookup_none {m : ChunkMap} {k : Nat}
    (h : btLookup m k = none) : (btRemove m k).1 = m := by
  induction m with
  | nil => rfl
  | cons hd tl ih =>
    simp only [btLookup] at h
    by_cases h1 : k = hd.1
    · rw [if_pos h1] at h
      exact absurd h (by simp)
    · rw [if_neg h1] at h
      simp only [btRemove, if_neg h1]
      rw [ih h]

theorem btInsert_append {m : ChunkMap} {k : Nat} (v : CatalogChunk)
    (h : ∀ x ∈ m, x.1 < k) : btInsert m k v = (m ++ [(k, v)], none) := by
  induction m with
  | nil => rfl
  | cons hd tl ih =>
    have hhd : hd.1 < k := h hd (List.mem_cons_self hd tl)
    simp only [btInsert]
    rw [if_neg (by omega), if_neg (by omega)]
    rw [ih fun x hx => h x (List.mem_cons_of_mem _ hx)]
    simp

theorem btLookup_btInsert_self (m : ChunkMap) (k : Nat) (v : CatalogChunk) :
    btLookup (btInsert m k v).1 k = some v := by
  induction m with
  | nil => simp [btInsert, btLookup]
  | cons hd tl ih =>
    simp only [btInsert]
    by_cases h1 : k < hd.1
    · simp [if_pos h1, btLookup]
    · by_cases h2 : k = hd.1
      · simp [if_neg h1, if_pos h2, btLookup]
      · simp only [if_neg h1, if_neg h2, btLookup]
        exact ih

theorem btInsert_lookup_none {m : ChunkMap} {k : Nat} {v : CatalogChunk}
    (h : btLookup m k = none) : (btInsert m k v).2 = none := by
  induction m with
  | nil => rfl
  | cons hd tl ih =>
    simp only [btLookup] at h
    by_cases h2 : k = hd.1
    · rw [if_pos h2] at h
      exact absurd h (by simp)
    · rw [if_neg h2] at h
      simp only [btInsert]
      by_cases h1 : k < hd.1
      · rw [if_pos h1]
      · rw [if_neg h1, if_neg h2]
        exact ih h

theorem create_open_chunk_ok {p : Partition} {mb : MBChunk} {t : Nat}
    {p' : Partition} {c : CatalogChunk}
    (h : p.create_open_chunk mb t = Except.ok (p', c)) :
    mb.table_name = p.table_name ∧
    p.next_chunk_id + 1 < U32LIMIT ∧ p.next_chunk_order + 1 < U32LIMIT ∧
    c = CatalogChunk.new_open (ChunkAddr.new p.addr p.next_chunk_id) mb t
      p.next_chunk_order ∧
    p' = { p with next_chunk_id := p.next_chunk_id + 1,
                  next_chunk_order := p.next_chunk_order + 1,
                  chunks := (btInsert p.chunks p.next_chunk_id c).1 } := by
  by_cases htbl : mb.table_name = p.table_name
  · by_cases hid : p.next_chunk_id + 1 < U32LIMIT
    · by_cases hord : p.next_chunk_order + 1 < U32LIMIT
      · simp only [Partition.create_open_chunk, Partition.pick_next, if_pos htbl,
          if_pos hid, if_pos hord] at h
        split at h
        · exact absurd h (by simp)
        · simp only [Except.ok.injEq, Prod.mk.injEq] at h
          obtain ⟨h1, h2⟩ := h
          subst h1
          subst h2
          exact ⟨htbl, hid, hord, rfl, rfl⟩
      · simp only [Partition.create_open_chunk, Partition.pick_next, if_pos htbl,
          if_pos hid, if_neg hord] at h
        exact Except.noConfusion h
    · simp only [Partition.create_open_chunk, Partition.pick_next, if_pos htbl,
        if_neg hid] at h
      exact Except.noConfusion h
  · simp only [Partition.create_open_chunk, if_neg htbl] at h
    exact Except.noConfusion h

theorem create_rub_chunk_ok {p : Partition} {rb : RBChunk} {t1 t2 : Nat}
    {schema : Schema} {preds : List Predicate} {chunk_order : Nat}
    {p' : Partition} {c : CatalogChunk}
    (h : p.create_rub_chunk rb t1 t2 schema preds chunk_order = Except.ok (p', c)) :
    p.next_chunk_id + 1 < U32LIMIT ∧ chunk_order < p.next_chunk_order ∧
    c = CatalogChunk.new_rub_chunk (ChunkAddr.new p.addr p.next_chunk_id) rb t1 t2
      schema preds chunk_order ∧
    p' = { p with next_chunk_id := p.next_chunk_id + 1,
                  chunks := (btInsert p.chunks p.next_chunk_id c).1 } := by
  by_cases hid : p.next_chunk_id + 1 < U32LIMIT
  · by_cases hord : chunk_order < p.next_chunk_order
    · simp only [Partition.create_rub_chunk, Partition.pick_next, if_pos hid,
        if_pos hord] at h
      split at h
      · exact absurd h (by simp)
      · simp only [Except.ok.injEq, Prod.mk.injEq] at h
        obtain ⟨h1, h2⟩ := h
        subst h1
        subst h2
        exact ⟨hid, hord, rfl, rfl⟩
    · simp only [Partition.create_rub_chunk, Partition.pick_next, if_pos hid,
        if_neg hord] at h
      exact Except.noConfusion h
  · simp only [Partition.create_rub_chunk, Partition.pick_next, if_neg hid] at h
    exact Except.noConfusion h

theorem insert_object_store_only_chunk_ok {p : Partition} {chunk_id : Nat}
    {pq : ParquetChunk} {t1 t2 : Nat} {preds : List Predicate} {chunk_order : Nat}
    {p' : Partition} {c : CatalogChunk}
    (h : p.insert_object_store_only_chunk chunk_id pq t1 t2 preds chunk_order =
      Except.ok (p', c)) :
    pq.table_name = p.table_name ∧
    btLookup p.chunks chunk_id = none ∧
    chunk_id + 1 < U32LIMIT ∧ chunk_order + 1 < U32LIMIT ∧
    c = CatalogChunk.new_object_store_only (ChunkAddr.new p.addr chunk_id) pq t1 t2
      preds chunk_order ∧
    p' = { p with next_chunk_id := max p.next_chunk_id (chunk_id + 1),
                  next_chunk_order := max p.next_chunk_order (chunk_order + 1),
                  chunks := (btInsert p.chunks chunk_id c).1 } := by
  by_cases htbl : pq.table_name = p.table_name
  · rcases hlook : btLookup p.chunks chunk_id with _ | c0
    · by_cases hid : chunk_id + 1 < U32LIMIT
      · by_cases hord : chunk_order + 1 < U32LIMIT
        · simp only [Partition.insert_object_store_only_chunk, if_pos htbl, hlook,
            if_pos hid, if_pos hord] at h
          simp only [Except.ok.injEq, Prod.mk.injEq] at h
          obtain ⟨h1, h2⟩ := h
          subst h1
          subst h2
          exact ⟨htbl, rfl, hid, hord, rfl, rfl⟩
        · simp only [Partition.insert_object_store_only_chunk, if_pos htbl, hlook,
            if_pos hid, if_neg hord] at h
          exact Except.noConfusion h
      · simp only [Partition.insert_object_store_only_chunk, if_pos htbl, hlook,
          if_neg hid] at h
        exact Except.noConfusion h
    · simp only [Partition.insert_object_store_only_chunk, if_pos htbl, hlook] at h
      exact Except.noConfusion h
  · simp only [Partition.insert_object_store_only_chunk, if_neg htbl] at h
    exact Except.noConfusion h

theorem drop_chunk_ok {p : Partition} {chunk_id : Nat}
    {p' : Partition} {c : CatalogChunk}
    (h : p.drop_chunk chunk_id = Except.ok (p', c)) :
    btLookup p.chunks chunk_id = some c ∧
    (c.lifecycle_action = none ∨ c.lifecycle_action = some ChunkLifecycleAction.Dropping) ∧
    p' = { p with chunks := (btRemove p.chunks chunk_id).1 } := by
  rcases hlook : btLookup p.chunks chunk_id with _ | c0
  · simp only [Partition.drop_chunk, hlook] at h
    exact Except.noConfusion h
  · rcases hact : c0.lifecycle_action with _ | action
    · simp only [Partition.drop_chunk, hlook, hact, Except.ok.injEq, Prod.mk.injEq] at h
      obtain ⟨h1, h2⟩ := h
      subst h1
      subst h2
      exact ⟨rfl, Or.inl hact, rfl⟩
    · by_cases hd : action = ChunkLifecycleAction.Dropping
      · subst hd
        simp only [Partition.drop_chunk, hlook, hact, ne_eq, not_true_eq_false,
          if_false, Except.ok.injEq, Prod.mk.injEq] at h
        obtain ⟨h1, h2⟩ := h
        subst h1
        subst h2
        exact ⟨rfl, Or.inr hact, rfl⟩
      · simp only [Partition.drop_chunk, hlook, hact, ne_eq, hd, not_false_eq_true,
          if_true] at h
        exact Except.noConfusion h

theorem stepOp_spec {p : Partition} {op : PartOp} {p' : Partition}
    {ins : List (Nat × Nat)} {alloc : List Nat}
    (h : stepOp p op = some (p', ins, alloc)) :
    p.next_chunk_id ≤ p'.next_chunk_id ∧
    p.next_chunk_order ≤ p'.next_chunk_order ∧
    (∀ pr ∈ ins, pr.1 < p'.next_chunk_id ∧ pr.2 < p'.next_chunk_order) ∧
    (∀ i ∈ alloc, p.next_chunk_id ≤ i ∧ i < p'.next_chunk_id) ∧
    alloc.Nodup ∧
    (ChunkMapSorted p.chunks → ChunkMapSorted p'.chunks) ∧
    p'.addr = p.addr := by
  cases op with
  | createOpen chunk t =>
    rcases hc : p.create_open_chunk chunk t with e | r
    · simp only [stepOp, hc] at h
      exact Option.noConfusion h
    · obtain ⟨p2, c⟩ := r
      simp only [stepOp, hc, Option.some.injEq, Prod.mk.injEq] at h
      obtain ⟨h1, h2, h3⟩ := h
      subst h1
      subst h2
      subst h3
      obtain ⟨-, -, -, hc', hp⟩ := create_open_chunk_ok hc
      subst hc'
      subst hp
      refine ⟨Nat.le_succ _, Nat.le_succ _, ?_, ?_, by simp,
        fun hs => btInsert_sorted hs, rfl⟩
      · intro pr hpr
        simp only [List.mem_singleton] at hpr
        subst hpr
        simp [CatalogChunk.new_open, ChunkAddr.new]
      · intro i hi
        simp only [List.mem_singleton] at hi
        subst hi
        simp
  | createFrozen chunk t1 t2 schema preds ord =>
    rcases hc : p.create_rub_chunk chunk t1 t2 schema preds ord with e | r
    · simp only [stepOp, hc] at h
      exact Option.noConfusion h
    · obtain ⟨p2, c⟩ := r
      simp only [stepOp, hc, Option.some.injEq, Prod.mk.injEq] at h
      obtain ⟨h1, h2, h3⟩ := h
      subst h1
      subst h2
      subst h3
      obtain ⟨-, hord, hc', hp⟩ := create_rub_chunk_ok hc
      subst hc'
      subst hp
      refine ⟨Nat.le_succ _, le_refl _, ?_, ?_, by simp,
        fun hs => btInsert_sorted hs, rfl⟩
      · intro pr hpr
        simp only [List.mem_singleton] at hpr
        subst hpr
        exact ⟨by simp [CatalogChunk.new_rub_chunk, ChunkAddr.new],
          by simpa [CatalogChunk.new_rub_chunk] using hord⟩
      · intro i hi
        simp only [List.mem_singleton] at hi
        subst hi
        simp
  | insertOSO chunk_id chunk t1 t2 preds ord =>
    rcases hc : p.insert_object_store_only_chunk chunk_id chunk t1 t2 preds ord with e | r
    · simp only [stepOp, hc] at h
      exact Option.noConfusion h
    · obtain ⟨p2, c⟩ := r
      simp only [stepOp, hc, Option.some.injEq, Prod.mk.injEq] at h
      obtain ⟨h1, h2, h3⟩ := h
      subst h1
      subst h2
      subst h3
      obtain ⟨-, -, -, -, hc', hp⟩ := insert_object_store_only_chunk_ok hc
      subst hc'
      subst hp
      refine ⟨le_max_left _ _, le_max_left _ _, ?_, by simp, by simp,
        fun hs => btInsert_sorted hs, rfl⟩
      intro pr hpr
      simp only [List.mem_singleton] at hpr
      subst hpr
      exact ⟨lt_of_lt_of_le (Nat.lt_succ_self _) (le_max_right _ _),
        lt_of_lt_of_le (Nat.lt_succ_self _) (le_max_right _ _)⟩
  | dropChunk chunk_id =>
    rcases hc : p.drop_chunk chunk_id with e | r
    · simp only [stepOp, hc, Option.some.injEq, Prod.mk.injEq] at h
      obtain ⟨h1, h2, h3⟩ := h
      subst h1
      subst h2
      subst h3
      exact ⟨le_refl _, le_refl _, by simp, by simp, by simp, fun hs => hs, rfl⟩
    · obtain ⟨p2, c⟩ := r
      simp only [stepOp, hc, Option.some.injEq, Prod.mk.injEq] at h
      obtain ⟨h1, h2, h3⟩ := h
      subst h1
      subst h2
      subst h3
      obtain ⟨-, -, hp⟩ := drop_chunk_ok hc
      subst hp
      exact ⟨le_refl _, le_refl _, by simp, by simp, by simp,
        fun hs => btRemove_sorted hs, rfl⟩
  | forceDrop chunk_id =>
    simp only [stepOp, Option.some.injEq, Prod.mk.injEq] at h
    obtain ⟨h1, h2, h3⟩ := h
    subst h1
    subst h2
    subst h3
    exact ⟨le_refl _, le_refl _, by simp, by simp, by simp,
      fun hs => btRemove_sorted hs, rfl⟩

theorem runOps_spec {ops : List PartOp} {p p' : Partition}
    {ins : List (Nat × Nat)} {alloc : List Nat}
    (h : runOps p ops = some (p', ins, alloc)) :
    p.next_chunk_id ≤ p'.next_chunk_id ∧
    p.next_chunk_order ≤ p'.next_chunk_order ∧
    (∀ pr ∈ ins, pr.1 < p'.next_chunk_id ∧ pr.2 < p'.next_chunk_order) ∧
    (∀ i ∈ alloc, p.next_chunk_id ≤ i ∧ i < p'.next_chunk_id) ∧
    alloc.Nodup ∧
    (ChunkMapSorted p.chunks → ChunkMapSorted p'.chunks) ∧
    p'.addr = p.addr := by
  induction ops generalizing p ins alloc with
  | nil =>
    simp only [runOps, Option.some.injEq, Prod.mk.injEq] at h
    obtain ⟨h1, h2, h3⟩ := h
    subst h1
    subst h2
    subst h3
    exact ⟨le_refl _, le_refl _, by simp, by simp, by simp, fun hs => hs, rfl⟩
  | cons op ops ih =>
    rcases hs : stepOp p op with _ | r1
    · simp only [runOps, hs] at h
      exact Option.noConfusion h
    · obtain ⟨p1, ins1, alloc1⟩ := r1
      rcases hr : runOps p1 ops with _ | r2
      · simp only [runOps, hs, hr] at h
        exact Option.noConfusion h
      · obtain ⟨p2, ins2, alloc2⟩ := r2
        simp only [runOps, hs, hr, Option.some.injEq, Prod.mk.injEq] at h
        obtain ⟨h1, h2, h3⟩ := h
        subst h1
        subst h2
        subst h3
        obtain ⟨a1, b1, c1, d1, e1, f1, g1⟩ := stepOp_spec hs
        obtain ⟨a2, b2, c2, d2, e2, f2, g2⟩ := ih hr
        refine ⟨le_trans a1 a2, le_trans b1 b2, ?_, ?_, ?_, fun hsort => f2 (f1 hsort),
          g2.trans g1⟩
        · intro pr hpr
          rcases List.mem_append.mp hpr with hpr | hpr
          · obtain ⟨u, v⟩ := c1 pr hpr
            exact ⟨lt_of_lt_of_le u a2, lt_of_lt_of_le v b2⟩
          · exact c2 pr hpr
        · intro i hi
          rcases List.mem_append.mp hi with hi | hi
          · obtain ⟨u, v⟩ := d1 i hi
            exact ⟨u, lt_of_lt_of_le v a2⟩
          · obtain ⟨u, v⟩ := d2 i hi
            exact ⟨le_trans a1 u, v⟩
        · rw [List.nodup_append]
          refine ⟨e1, e2, ?_⟩
          intro i hi1 hi2
          obtain ⟨-, v⟩ := d1 i hi1
          obtain ⟨u, -⟩ := d2 i hi2
          omega

/-- Shared concrete partition address for witnesses. -/
def exAddr : PartitionAddr :=
  { db_name := "d", table_name := "t", partition_key := "p" }

/-- Shared concrete mutable-buffer chunk for table `t`. -/
def exMB : MBChunk := { table_name := "t" }

/-- Shared concrete parquet chunk for table `t`. -/
def exPQ : ParquetChunk := { table_name := "t" }

/-- Shared concrete read-buffer chunk. -/
def exRB : RBChunk := { rows := 1 }

/-- C2: `drop_chunk` returns `ChunkNotFound` when the id is absent; returns
`LifecycleInProgress` with the chunk's address and the in-flight action's
kind when the chunk has an in-flight lifecycle action other than `Dropping`;
and otherwise (no in-flight action, or an in-flight `Dropping` action)
removes the chunk from the mapping and returns it. -/
theorem C2_drop_chunk_semantics (p : Partition) (chunk_id : Nat) :
    (btLookup p.chunks chunk_id = none →
       p.drop_chunk chunk_id =
         Except.error (Error.ChunkNotFound (ChunkAddr.new p.addr chunk_id))) ∧
    (∀ c, btLookup p.chunks chunk_id = some c →
       (∀ action, c.lifecycle_action = some action →
          action ≠ ChunkLifecycleAction.Dropping →
          p.drop_chunk chunk_id =
            Except.error (Error.LifecycleInProgress c.addr action)) ∧
       ((c.lifecycle_action = none ∨
           c.lifecycle_action = some ChunkLifecycleAction.Dropping) →
          p.drop_chunk chunk_id =
            Except.ok ({ p with chunks := (btRemove p.chunks chunk_id).1 }, c))) := by
  constructor
  · intro h
    simp [Partition.drop_chunk, h]
  · intro c hc
    constructor
    · intro action hact hne
      simp [Partition.drop_chunk, hc, hact, hne]
    · rintro (hact | hact) <;> simp [Partition.drop_chunk, hc, hact]

/-- Witness chunk for C2: carries an in-flight `Compacting` action. -/
def c2wChunk : CatalogChunk :=
  { addr := ChunkAddr.new exAddr 1, stage := ChunkStage.ObjectStoreOnly exPQ [],
    lifecycle_action := some ChunkLifecycleAction.Compacting,
    time_of_first_write := 0, time_of_last_write := 0, order := 0 }

/-- Witness partition for C2. -/
def c2wPartition : Partition :=
  { addr := exAddr, chunks := [(1, c2wChunk)], created_at := 0, last_write_at := 0,
    next_chunk_id := 2, next_chunk_order := 1 }

theorem C2_witness :
    btLookup c2wPartition.chunks 1 = some c2wChunk ∧
    c2wChunk.lifecycle_action = some ChunkLifecycleAction.Compacting ∧
    c2wPartition.drop_chunk 1 =
      Except.error (Error.LifecycleInProgress c2wChunk.addr
        ChunkLifecycleAction.Compacting) :=
  ⟨by decide, by decide,
   ((C2_drop_chunk_semantics c2wPartition 1).2 c2wChunk (by decide)).1
     ChunkLifecycleAction.Compacting (by decide) (by decide)⟩

/-- C3: when the supplied id is vacant, `insert_object_store_only_chunk`
inserts the chunk and sets `next_chunk_id` to `max(current, id + 1)` and
`next_chunk_order` to `max(current, order + 1)`; when the supplied id is
occupied it aborts fatally. -/
theorem C3_insert_object_store_only_advances_counters (p : Partition)
    (chunk_id : Nat) (pq : ParquetChunk) (t1 t2 : Nat) (preds : List Predicate)
    (chunk_order : Nat) (htbl : pq.table_name = p.table_name) :
    (btLookup p.chunks chunk_id = none → chunk_id + 1 < U32LIMIT →
       chunk_order + 1 < U32LIMIT →
       p.insert_object_store_only_chunk chunk_id pq t1 t2 preds chunk_order =
         Except.ok
           ({ p with
               next_chunk_id := max p.next_chunk_id (chunk_id + 1),
               next_chunk_order := max p.next_chunk_order (chunk_order + 1),
               chunks := (btInsert p.chunks chunk_id
                 (CatalogChunk.new_object_store_only (ChunkAddr.new p.addr chunk_id)
                   pq t1 t2 preds chunk_order)).1 },
            CatalogChunk.new_object_store_only (ChunkAddr.new p.addr chunk_id)
              pq t1 t2 preds chunk_order)) ∧
    (∀ c0, btLookup p.chunks chunk_id = some c0 →
       p.insert_object_store_only_chunk chunk_id pq t1 t2 preds chunk_order =
         Except.error (PanicMsg.ChunkAlreadyExisted chunk_id, p)) := by
  constructor
  · intro h1 h2 h3
    simp [Partition.insert_object_store_only_chunk, htbl, h1, h2, h3]
  · intro c0 h
    simp [Partition.insert_object_store_only_chunk, htbl, h]

/-- Witness partition for C3, with `next_chunk_id = 2`, `next_chunk_order = 1`. -/
def c3wPartition : Partition :=
  { addr := exAddr, chunks := [], created_at := 0, last_write_at := 0,
    next_chunk_id := 2, next_chunk_order := 1 }

/-- The chunk the C3 witness inserts (id 5, order 3). -/
def c3wChunk : CatalogChunk :=
  CatalogChunk.new_object_store_only (ChunkAddr.new exAddr 5) exPQ 0 0 [] 3

/-- The partition the C3 witness ends in. -/
def c3wFinal : Partition :=
  { c3wPartition with
      next_chunk_id := max c3wPartition.next_chunk_id 6,
      next_chunk_order := max c3wPartition.next_chunk_order 4,
      chunks := (btInsert c3wPartition.chunks 5 c3wChunk).1 }

theorem C3_witness :
    btLookup c3wPartition.chunks 5 = none ∧
    c3wPartition.next_chunk_id = 2 ∧ c3wPartition.next_chunk_order = 1 ∧
    c3wPartition.insert_object_store_only_chunk 5 exPQ 0 0 [] 3 =
      Except.ok (c3wFinal, c3wChunk) ∧
    c3wFinal.next_chunk_id = 6 ∧ c3wFinal.next_chunk_order = 4 :=
  ⟨by decide, by decide, by decide,
   (C3_insert_object_store_only_advances_counters c3wPartition 5 exPQ 0 0 [] 3
     (by decide)).1 (by decide) (by decide) (by decide),
   by decide, by decide⟩

/-- C4: `create_rub_chunk` requires `chunk_order < next_chunk_order`: with an
order not below the current `next_chunk_order` it aborts fatally, and under
the precondition the order-check abort is unreachable and a successfully
created chunk carries the supplied order and is present in the mapping. -/
theorem C4_create_rub_chunk_order_precondition (p : Partition) (rb : RBChunk)
    (t1 t2 : Nat) (schema : Schema) (preds : List Predicate) (chunk_order : Nat) :
    (p.next_chunk_order ≤ chunk_order →
       ∃ e st, p.create_rub_chunk rb t1 t2 schema preds chunk_order =
         Except.error (e, st)) ∧
    (chunk_order < p.next_chunk_order →
       (∀ o b st, p.create_rub_chunk rb t1 t2 schema preds chunk_order ≠
          Except.error (PanicMsg.ChunkOrderOutOfRange o b, st)) ∧
       (∀ p' c, p.create_rub_chunk rb t1 t2 schema preds chunk_order =
          Except.ok (p', c) →
          c.order = chunk_order ∧ btLookup p'.chunks c.addr.chunk_id = some c)) := by
  constructor
  · intro hge
    by_cases hid : p.next_chunk_id + 1 < U32LIMIT
    · refine ⟨PanicMsg.ChunkOrderOutOfRange chunk_order p.next_chunk_order,
        { p with next_chunk_id := p.next_chunk_id + 1 }, ?_⟩
      simp [Partition.create_rub_chunk, Partition.pick_next, hid,
        show ¬chunk_order < p.next_chunk_order by omega]
    · refine ⟨PanicMsg.ChunkIdOverflow, p, ?_⟩
      simp [Partition.create_rub_chunk, Partition.pick_next, hid]
  · intro hord
    constructor
    · intro o b st heq
      by_cases hid : p.next_chunk_id + 1 < U32LIMIT
      · simp only [Partition.create_rub_chunk, Partition.pick_next, if_pos hid,
          if_pos hord] at heq
        split at heq
        · simp at heq
        · exact Except.noConfusion heq
      · simp only [Partition.create_rub_chunk, Partition.pick_next, if_neg hid] at heq
        simp at heq
    · intro p' c hok
      obtain ⟨-, -, hc, hp⟩ := create_rub_chunk_ok hok
      subst hc
      subst hp
      exact ⟨rfl, btLookup_btInsert_self _ _ _⟩

/-- Witness partition for C4, with `next_chunk_order = 1`. -/
def c4wPartition : Partition :=
  { addr := exAddr, chunks := [], created_at := 0, last_write_at := 0,
    next_chunk_id := 0, next_chunk_order := 1 }

/-- The chunk the C4 witness creates (order 0, below `next_chunk_order`). -/
def c4wChunk : CatalogChunk :=
  CatalogChunk.new_rub_chunk (ChunkAddr.new exAddr 0) exRB 0 0 () [] 0

/-- The partition the C4 witness ends in. -/
def c4wFinal : Partition :=
  { c4wPartition with
      next_chunk_id := 1,
      chunks := (btInsert c4wPartition.chunks 0 c4wChunk).1 }

theorem C4_witness :
    (0 : Nat) < c4wPartition.next_chunk_order ∧
    c4wPartition.create_rub_chunk exRB 0 0 () [] 0 = Except.ok (c4wFinal, c4wChunk) ∧
    (c4wChunk.order = 0 ∧ btLookup c4wFinal.chunks c4wChunk.addr.chunk_id = some c4wChunk) :=
  ⟨by decide, by rfl,
   ((C4_create_rub_chunk_order_precondition c4wPartition exRB 0 0 () [] 0).2
     (by decide)).2 c4wFinal c4wChunk (by rfl)⟩

/-- Fresh partition used by the C5 counterexample. -/
def c5Fresh : Partition := Partition.new exAddr 0

/-- The state `create_rub_chunk` carries at the order-check abort: the
`next_chunk_id` counter has already been advanced by `pick_next`. -/
def c5AbortState : Partition := { c5Fresh with next_chunk_id := 1 }

/-- C5 counterexample: on a fresh partition, `create_rub_chunk` with an
out-of-range order (0, when `next_chunk_order = 0`) aborts fatally, but at
the abort point `next_chunk_id` has already been advanced from 0 to 1 — the
partition state is not unchanged from before the call, refuting the claim
that a failing fatal invariant check leaves the chunk mapping and both
counters unmutated for all of the listed operations. -/
theorem C5_counterexample :
    c5Fresh.create_rub_chunk exRB 0 0 () [] 0 =
      Except.error (PanicMsg.ChunkOrderOutOfRange 0 0, c5AbortState) ∧
    c5Fresh.next_chunk_id = 0 ∧ c5AbortState.next_chunk_id = 1 := by
  refine ⟨by rfl, by decide, by decide⟩

/-- C5 amended: in `insert_object_store_only_chunk` the duplicate-id fatal
abort is atomic with the existence check — it fires with the partition
exactly as before the call (no counter update, no mapping update), because
the counters and the mapping are only touched in the vacant branch of the
entry match. -/
theorem C5_insert_object_store_only_abort_atomic (p : Partition) (chunk_id : Nat)
    (pq : ParquetChunk) (t1 t2 : Nat) (preds : List Predicate) (chunk_order : Nat)
    (c0 : CatalogChunk) (htbl : pq.table_name = p.table_name)
    (hdup : btLookup p.chunks chunk_id = some c0) :
    p.insert_object_store_only_chunk chunk_id pq t1 t2 preds chunk_order =
      Except.error (PanicMsg.ChunkAlreadyExisted chunk_id, p) := by
  simp [Partition.insert_object_store_only_chunk, htbl, hdup]

/-- Witness chunk for C5 (already present at id 2). -/
def c5wChunk : CatalogChunk :=
  CatalogChunk.new_object_store_only (ChunkAddr.new exAddr 2) exPQ 0 0 [] 0

/-- Witness partition for C5. -/
def c5wPartition : Partition :=
  { addr := exAddr, chunks := [(2, c5wChunk)], created_at := 0, last_write_at := 0,
    next_chunk_id := 3, next_chunk_order := 1 }

theorem C5_witness :
    exPQ.table_name = c5wPartition.table_name ∧
    btLookup c5wPartition.chunks 2 = some c5wChunk ∧
    c5wPartition.insert_object_store_only_chunk 2 exPQ 0 0 [] 7 =
      Except.error (PanicMsg.ChunkAlreadyExisted 2, c5wPartition) :=
  ⟨by decide, by decide,
   C5_insert_object_store_only_abort_atomic c5wPartition 2 exPQ 0 0 [] 7 c5wChunk
     (by decide) (by decide)⟩

/-- The chunk produced by the C6 evaluation. -/
def c6Chunk : CatalogChunk := CatalogChunk.new_open (ChunkAddr.new exAddr 0) exMB 0 0

/-- The partition state after the C6 evaluation. -/
def c6Final : Partition :=
  { Partition.new exAddr 0 with
      next_chunk_id := 1,
      next_chunk_order := 1,
      chunks := [(0, c6Chunk)] }

/-- C6 evidence: `create_open_chunk` returns the chunk handle directly — its
result is `Except.ok` (a handle) or a fatal abort; its type has no path that
produces the recoverable `Error.CreateOpenChunk` value, even though that
variant is declared (lines 39-41) and the function's own doc comment (line
135) promises an error return for empty data. -/
theorem C6_create_open_chunk_returns_handle :
    (Partition.new exAddr 0).create_open_chunk exMB 0 = Except.ok (c6Final, c6Chunk) := by
  rfl

/-- C9: `force_drop_chunk` removes the entry at the id unconditionally —
regardless of any in-flight lifecycle action, since it never inspects
`lifecycle_action` — signals no error (it is total and returns the partition
directly), leaves both counters untouched, and is a no-op when no chunk with
that id exists. -/
theorem C9_force_drop_chunk_unconditional (p : Partition) (chunk_id : Nat)
    (hs : ChunkMapSorted p.chunks) :
    btLookup (p.force_drop_chunk chunk_id).chunks chunk_id = none ∧
    (p.force_drop_chunk chunk_id).next_chunk_id = p.next_chunk_id ∧
    (p.force_drop_chunk chunk_id).next_chunk_order = p.next_chunk_order ∧
    (btLookup p.chunks chunk_id = none → p.force_drop_chunk chunk_id = p) := by
  refine ⟨btLookup_btRemove_self hs, rfl, rfl, ?_⟩
  intro h
  show { p with chunks := (btRemove p.chunks chunk_id).1 } = p
  rw [btRemove_of_lookup_none h]

/-- Witness chunk for C9: carries an in-flight `Persisting` action. -/
def c9wChunk : CatalogChunk :=
  { addr := ChunkAddr.new exAddr 0, stage := ChunkStage.Open exMB,
    lifecycle_action := some ChunkLifecycleAction.Persisting,
    time_of_first_write := 0, time_of_last_write := 0, order := 0 }

/-- Witness partition for C9. -/
def c9wPartition : Partition :=
  { addr := exAddr, chunks := [(0, c9wChunk)], created_at := 0, last_write_at := 0,
    next_chunk_id := 1, next_chunk_order := 1 }

theorem C9_witness :
    ChunkMapSorted c9wPartition.chunks ∧
    c9wChunk.lifecycle_action = some ChunkLifecycleAction.Persisting ∧
    btLookup (c9wPartition.force_drop_chunk 0).chunks 0 = none :=
  ⟨by decide, by decide, (C9_force_drop_chunk_unconditional c9wPartition 0 (by decide)).1⟩

/-- C10: `insert_object_store_only_chunk` aborts with a table-name-mismatch
assertion when the supplied chunk's table name differs from the partition's
table name, and with matching table names no table-name-mismatch abort can
occur. -/
theorem C10_insert_object_store_only_table_name_abort (p : Partition)
    (chunk_id : Nat) (pq : ParquetChunk) (t1 t2 : Nat) (preds : List Predicate)
    (chunk_order : Nat) :
    (pq.table_name ≠ p.table_name →
       p.insert_object_store_only_chunk chunk_id pq t1 t2 preds chunk_order =
         Except.error (PanicMsg.TableNameMismatch pq.table_name p.table_name, p)) ∧
    (pq.table_name = p.table_name →
       ∀ e st, p.insert_object_store_only_chunk chunk_id pq t1 t2 preds chunk_order =
         Except.error (e, st) → ∀ s1 s2, e ≠ PanicMsg.TableNameMismatch s1 s2) := by
  constructor
  · intro h
    simp [Partition.insert_object_store_only_chunk, h]
  · intro htbl e st heq s1 s2 he
    subst he
    rcases hlook : btLookup p.chunks chunk_id with _ | c0
    · by_cases hid : chunk_id + 1 < U32LIMIT
      · by_cases hord : chunk_order + 1 < U32LIMIT
        · simp [Partition.insert_object_store_only_chunk, htbl, hlook, hid, hord] at heq
        · simp [Partition.insert_object_store_only_chunk, htbl, hlook, hid, hord] at heq
      · simp [Partition.insert_object_store_only_chunk, htbl, hlook, hid] at heq
    · simp [Partition.insert_object_store_only_chunk, htbl, hlook] at heq

/-- Witness parquet chunk for C10 with a mismatching table name. -/
def c10wPQ : ParquetChunk := { table_name := "x" }

theorem C10_witness :
    c10wPQ.table_name ≠ (Partition.new exAddr 0).table_name ∧
    (Partition.new exAddr 0).insert_object_store_only_chunk 0 c10wPQ 0 0 [] 0 =
      Except.error (PanicMsg.TableNameMismatch c10wPQ.table_name
        (Partition.new exAddr 0).table_name, Partition.new exAddr 0) :=
  ⟨by decide,
   (C10_insert_object_store_only_table_name_abort (Partition.new exAddr 0) 0 c10wPQ
     0 0 [] 0).1 (by decide)⟩

/-- The uniqueness half of claim C1 as stated: over a run of mutating
operations, no chunk id and no chunk order recorded as inserted into the
mapping is ever issued twice. -/
def noIdOrOrderReissued (p : Partition) (ops : List PartOp) : Prop :=
  ∀ p' ins alloc, runOps p ops = some (p', ins, alloc) →
    (ins.map Prod.fst).Nodup ∧ (ins.map Prod.snd).Nodup

/-- C1 counterexample operations: restore a chunk at id 0 / order 5,
force-drop it, then restore another chunk at id 0 / order 5. -/
def c1cexOps : List PartOp :=
  [PartOp.insertOSO 0 exPQ 0 0 [] 5, PartOp.forceDrop 0,
   PartOp.insertOSO 0 exPQ 0 0 [] 5]

/-- The chunk the C1 counterexample run ends with. -/
def c1cexChunk : CatalogChunk :=
  CatalogChunk.new_object_store_only (ChunkAddr.new exAddr 0) exPQ 0 0 [] 5

/-- The partition the C1 counterexample run ends in. -/
def c1cexFinal : Partition :=
  { addr := exAddr, chunks := [(0, c1cexChunk)], created_at := 0, last_write_at := 0,
    next_chunk_id := 1, next_chunk_order := 6 }

/-- C1 counterexample: every step of the run succeeds, yet chunk id 0 is
inserted twice (the restore path accepts a previously dropped id) and chunk
order 5 is assigned twice (orders are never checked for uniqueness) — so the
claim that no chunk id or order is ever issued twice, even after a drop,
fails on the code. -/
theorem C1_counterexample :
    ¬ noIdOrOrderReissued (Partition.new exAddr 0) c1cexOps := by
  intro h
  have h2 := h c1cexFinal [(0, 5), (0, 5)] [] (by rfl)
  simp at h2

/-- C1 amended: over every run of the mutating operations, both counters
never decrease, `next_chunk_id` stays strictly greater than every chunk id
ever inserted into the mapping and `next_chunk_order` strictly greater than
every chunk order ever assigned, and the chunk ids allocated from the
internal counter (by `create_open_chunk` / `create_rub_chunk`) are never
issued twice; but ids supplied to the restore path may repeat a dropped id,
and orders may repeat. -/
theorem C1_counters_monotone_and_allocated_ids_unique (ops : List PartOp)
    (p p' : Partition) (ins : List (Nat × Nat)) (alloc : List Nat)
    (h : runOps p ops = some (p', ins, alloc)) :
    p.next_chunk_id ≤ p'.next_chunk_id ∧
    p.next_chunk_order ≤ p'.next_chunk_order ∧
    (∀ pr ∈ ins, pr.1 < p'.next_chunk_id ∧ pr.2 < p'.next_chunk_order) ∧
    (∀ i ∈ alloc, p.next_chunk_id ≤ i ∧ i < p'.next_chunk_id) ∧
    alloc.Nodup := by
  obtain ⟨a, b, c, d, e, -, -⟩ := runOps_spec h
  exact ⟨a, b, c, d, e⟩

/-- C1 witness operations: one fresh open chunk, then one frozen chunk
reusing reserved order 0. -/
def c1wOps : List PartOp :=
  [PartOp.createOpen exMB 0, PartOp.createFrozen exRB 0 0 () [] 0]

/-- The open chunk the C1 witness run creates. -/
def c1wOpenChunk : CatalogChunk :=
  CatalogChunk.new_open (ChunkAddr.new exAddr 0) exMB 0 0

/-- The frozen chunk the C1 witness run creates. -/
def c1wFrozenChunk : CatalogChunk :=
  CatalogChunk.new_rub_chunk (ChunkAddr.new exAddr 1) exRB 0 0 () [] 0

/-- The partition the C1 witness run ends in. -/
def c1wFinal : Partition :=
  { addr := exAddr, chunks := [(0, c1wOpenChunk), (1, c1wFrozenChunk)],
    created_at := 0, last_write_at := 0, next_chunk_id := 2, next_chunk_order := 1 }

theorem C1_witness :
    runOps (Partition.new exAddr 0) c1wOps = some (c1wFinal, [(0, 0), (1, 0)], [0, 1]) ∧
    ((Partition.new exAddr 0).next_chunk_id ≤ c1wFinal.next_chunk_id ∧
     (Partition.new exAddr 0).next_chunk_order ≤ c1wFinal.next_chunk_order ∧
     (∀ pr ∈ [((0 : Nat), (0 : Nat)), (1, 0)],
        pr.1 < c1wFinal.next_chunk_id ∧ pr.2 < c1wFinal.next_chunk_order) ∧
     (∀ i ∈ [(0 : Nat), 1],
        (Partition.new exAddr 0).next_chunk_id ≤ i ∧ i < c1wFinal.next_chunk_id) ∧
     ([(0 : Nat), 1]).Nodup) :=
  ⟨by rfl,
   C1_counters_monotone_and_allocated_ids_unique c1wOps (Partition.new exAddr 0)
     c1wFinal [(0, 0), (1, 0)] [0, 1] (by rfl)⟩

theorem runOps_replicate_open (mb : MBChunk) (t : Nat) :
    ∀ (n k : Nat) (p : Partition),
      mb.table_name = p.table_name →
      p.next_chunk_id = k → p.next_chunk_order = k →
      p.chunks.map Prod.fst = List.range k →
      (p.chunks.map fun kv => kv.2.addr.chunk_id) = List.range k →
      k + n < U32LIMIT →
      ∃ p' ins alloc,
        runOps p (List.replicate n (PartOp.createOpen mb t)) = some (p', ins, alloc) ∧
        p'.chunks.map Prod.fst = List.range (k + n) ∧
        (p'.chunks.map fun kv => kv.2.addr.chunk_id) = List.range (k + n) ∧
        p'.next_chunk_id = k + n ∧ p'.next_chunk_order = k + n := by
  intro n
  induction n with
  | zero =>
    intro k p htbl h1 h2 h3 h4 hlim
    exact ⟨p, [], [], by simp [runOps], by simpa using h3, by simpa using h4,
      by simpa using h1, by simpa using h2⟩
  | succ n ih =>
    intro k p htbl h1 h2 h3 h4 hlim
    have hkeylt : ∀ x ∈ p.chunks, x.1 < k := by
      intro x hx
      have hmem : x.1 ∈ p.chunks.map Prod.fst := List.mem_map_of_mem Prod.fst hx
      rw [h3] at hmem
      exact List.mem_range.mp hmem
    have hlt : k + 1 < U32LIMIT := by omega
    have hstep : p.create_open_chunk mb t = Except.ok
        ({ p with
            next_chunk_id := k + 1,
            next_chunk_order := k + 1,
            chunks := p.chunks ++
              [(k, CatalogChunk.new_open (ChunkAddr.new p.addr k) mb t k)] },
          CatalogChunk.new_open (ChunkAddr.new p.addr k) mb t k) := by
      simp only [Partition.create_open_chunk, Partition.pick_next, htbl, h1, h2, hlt,
        if_true, eq_self_iff_true]
      rw [btInsert_append _ hkeylt]
      simp
    have hstepOp : stepOp p (PartOp.createOpen mb t) =
        some ({ p with
            next_chunk_id := k + 1,
            next_chunk_order := k + 1,
            chunks := p.chunks ++
              [(k, CatalogChunk.new_open (ChunkAddr.new p.addr k) mb t k)] },
          [(k, k)], [k]) := by
      simp [stepOp, hstep, CatalogChunk.new_open, ChunkAddr.new, h1]
    obtain ⟨p', ins, alloc, hrun, hkeys, hids, hid', hord'⟩ :=
      ih (k + 1)
        ({ p with
            next_chunk_id := k + 1,
            next_chunk_order := k + 1,
            chunks := p.chunks ++
              [(k, CatalogChunk.new_open (ChunkAddr.new p.addr k) mb t k)] })
        htbl rfl rfl
        (by simp [List.range_succ, h3])
        (by simp [List.range_succ, h4, CatalogChunk.new_open, ChunkAddr.new])
        (by omega)
    refine ⟨p', [(k, k)] ++ ins, [k] ++ alloc, ?_, ?_, ?_, ?_, ?_⟩
    · rw [List.replicate_succ]
      simp only [runOps, hstepOp, hrun]
    · rw [show k + (n + 1) = (k + 1) + n by omega]
      exact hkeys
    · rw [show k + (n + 1) = (k + 1) + n by omega]
      exact hids
    · rw [show k + (n + 1) = (k + 1) + n by omega]
      exact hid'
    · rw [show k + (n + 1) = (k + 1) + n by omega]
      exact hord'

/-- C7: the chunk mapping iterates in strictly ascending chunk-id order:
starting from any partition whose mapping satisfies the `BTreeMap`
representation invariant, every run of mutating operations preserves it and
`keyed_chunks` yields keys in strictly ascending order; and after creating
`n` chunks in sequence on a fresh partition, `keyed_chunks` and `chunk_list`
yield exactly the ids `0 .. n-1` in ascending order. -/
theorem C7_chunks_iterate_in_ascending_id_order :
    (∀ (p : Partition) (ops : List PartOp)
       (res : Partition × List (Nat × Nat) × List Nat),
       ChunkMapSorted p.chunks → runOps p ops = some res →
       ChunkMapSorted res.1.chunks ∧
       List.Pairwise (fun a b => a < b) (res.1.keyed_chunks.map Prod.fst)) ∧
    (∀ (addr : PartitionAddr) (now : Nat) (mb : MBChunk) (t n : Nat),
       mb.table_name = addr.table_name → n < U32LIMIT →
       ∃ res, runOps (Partition.new addr now)
           (List.replicate n (PartOp.createOpen mb t)) = some res ∧
         res.1.keyed_chunks.map Prod.fst = List.range n ∧
         res.1.chunk_list.map (fun c => c.addr.chunk_id) = List.range n) := by
  constructor
  · rintro p ops ⟨p', ins, alloc⟩ hs hrun
    obtain ⟨-, -, -, -, -, hsort, -⟩ := runOps_spec hrun
    refine ⟨hsort hs, ?_⟩
    have hp := hsort hs
    rw [ChunkMapSorted] at hp
    exact List.pairwise_map.mpr hp
  · intro addr now mb t n htbl hn
    obtain ⟨p', ins, alloc, hrun, hkeys, hids, -, -⟩ :=
      runOps_replicate_open mb t n 0 (Partition.new addr now) htbl rfl rfl rfl rfl
        (by omega)
    refine ⟨(p', ins, alloc), hrun, ?_, ?_⟩
    · simpa [Partition.keyed_chunks] using hkeys
    · simpa [Partition.chunk_list, List.map_map, Function.comp] using hids

/-- C7 witness operations: create, force-drop, create again. -/
def c7wOps : List PartOp :=
  [PartOp.createOpen exMB 0, PartOp.forceDrop 0, PartOp.createOpen exMB 0]

/-- The chunk the C7 witness run ends with. -/
def c7wChunk : CatalogChunk :=
  CatalogChunk.new_open (ChunkAddr.new exAddr 1) exMB 0 1

/-- The result of the C7 witness run. -/
def c7wRes : Partition × List (Nat × Nat) × List Nat :=
  ({ addr := exAddr, chunks := [(1, c7wChunk)], created_at := 0, last_write_at := 0,
     next_chunk_id := 2, next_chunk_order := 2 }, [(0, 0), (1, 1)], [0, 1])

theorem C7_witness :
    ChunkMapSorted (Partition.new exAddr 0).chunks ∧
    runOps (Partition.new exAddr 0) c7wOps = some c7wRes ∧
    (ChunkMapSorted c7wRes.1.chunks ∧
     List.Pairwise (fun a b => a < b) (c7wRes.1.keyed_chunks.map Prod.fst)) :=
  ⟨by decide, by rfl,
   C7_chunks_iterate_in_ascending_id_order.1 (Partition.new exAddr 0) c7wOps c7wRes
     (by decide) (by rfl)⟩

/-- The C8 scenario run: three `create_open_chunk` calls on a fresh
partition, observing the keyed ids, the stages, and `open_chunk`; then
`drop_chunk 1`, observing the keyed ids and the id of one further
`create_open_chunk`. -/
def c8Run : Except (PanicMsg × Partition)
    (List Nat × List Bool × Option Nat × Option (List Nat × Option Nat)) :=
  ((Partition.new exAddr 0).create_open_chunk exMB 0).bind fun r1 =>
    (r1.1.create_open_chunk exMB 0).bind fun r2 =>
      (r2.1.create_open_chunk exMB 0).map fun r3 =>
        (r3.1.keyed_chunks.map Prod.fst,
         r3.1.chunk_list.map (fun c => c.stage.isOpen),
         r3.1.open_chunk.map (fun c => c.addr.chunk_id),
         (r3.1.drop_chunk 1).toOption.map (fun r4 =>
           (r4.1.keyed_chunks.map Prod.fst,
            (r4.1.create_open_chunk exMB 0).toOption.map (fun r5 =>
              r5.2.addr.chunk_id))))

/-- C8: the spec scenario on a fresh partition `(d, t, p)`: three
`create_open_chunk` calls yield ids `[0, 1, 2]`, all in `Open` stage, and
`open_chunk` returns the chunk with id 0; after `drop_chunk 1` the mapping
yields ids `[0, 2]`; a subsequent `create_open_chunk` yields id 3, never
reusing id 1. -/
theorem C8_scenario : c8Run =
    Except.ok ([0, 1, 2], [true, true, true], some 0, some ([0, 2], some 3)) := by
  rfl
